import Mathlib

/-!
Shallow embedding of `src/app.py` (streamlit-options-scanner).

Conventions of the embedding:
* Prices, strikes, bids, asks, volumes, percentages are rationals (`ℚ`).
  The source works on IEEE doubles; every literal threshold (`0.33`, `0.98`,
  `0.70`, `0.65`, `0.50`) is embedded as the exact rational it denotes.
* Dates are day numbers (`Int`).  `datetime.today()` — read by the source
  inside `fetch_yfinance_data` (lines 48, 64–65, 86–87) — is passed here as
  an explicit `today : Int` parameter so that its influence on the output can
  be stated.  `dte = (strptime(exp) - today).days` becomes `exp - today`.
* The data that `yfinance` returns for one ticker is a `TickerData`;
  `none` in place of a `TickerData` models the provider raising an exception,
  which the source's outer `try/except` (lines 20, 110–111) turns into a
  silent `return None`.
* `st.warning` output (line 26) is modelled as a list of warning strings
  returned next to the result, so that user-visible reporting is observable.
* Python `NaN` arising from the RSI pipeline (rolling mean over too little
  history, or `0/0` when both average gain and average loss are zero) is
  modelled as `none : Option ℚ`; a comparison `NaN >= x` is `false`, which is
  what `rsiPass` returns on `none`.  When only the average loss is zero and
  the average gain is positive, the float quotient `rs = avg_gain/avg_loss`
  is `+inf` and `rsi = 100 - 100/(1 + inf) = 100`; the embedding returns
  `some 100` in that case, mirroring the IEEE evaluation of line 35–36
  (the source has no explicit branch; the value arises from `inf`).
-/

/-- One row of an option chain (a call or a put quote). -/
structure OptionRow where
  strike : ℚ
  bid : ℚ
  ask : ℚ
deriving DecidableEq

/-- One expiration of a chain: its date (day number) and both sides,
as returned by `stock.option_chain(exp)` (lines 46–54). -/
structure Expiration where
  exp : Int
  calls : List OptionRow
  puts : List OptionRow
deriving DecidableEq

/-- The `stock.info` dictionary, restricted to the keys the source reads
(lines 93, 104–108).  A `none` field models a key absent from the dict. -/
structure Info where
  impliedVolatility : Option ℚ
  dividendYield : Option ℚ
  sector : Option String
  marketCap : Option ℚ
  averageVolume : Option ℚ
  earningsDate : Option String
deriving DecidableEq

/-- Everything yfinance hands the source for one ticker: the 30-day close
history (chronological), the info dict, and the option chain per expiration. -/
structure TickerData where
  hist : List ℚ
  info : Info
  options : List Expiration
deriving DecidableEq

/-- A covered-call record as appended at lines 58–66. -/
structure CoveredCall where
  ticker : String
  expiration : Int
  strike : ℚ
  premium : ℚ
  dte : Int
  entryDate : Int
  exitDate : Int
deriving DecidableEq

/-- A put-credit-spread record as appended at lines 77–88. -/
structure PutSpread where
  ticker : String
  shortStrike : ℚ
  longStrike : ℚ
  credit : ℚ
  width : ℚ
  dte : Int
  pop : ℚ
  expiration : Int
  entryDate : Int
  exitDate : Int
deriving DecidableEq

/-- The per-ticker result dictionary built at lines 95–109. -/
structure TickerResult where
  ticker : String
  price : ℚ
  breakoutHigh : ℚ
  breakout : Bool
  rsi : Option ℚ
  iv : ℚ
  coveredCalls : List CoveredCall
  putSpreads : List PutSpread
  sector : String
  marketCap : ℚ
  dividendYield : ℚ
  avgVolume : ℚ
  earningsDate : String
deriving DecidableEq

/-- The sidebar price-range selectbox (line 134). -/
inductive PriceRange where
  | all
  | lt10
  | r10to50
  | r50to150
  | gt150
deriving DecidableEq

/-- The sidebar scan settings (lines 131–141). -/
structure Config where
  price_range : PriceRange
  rsi_min : ℚ
  rsi_max : ℚ
  iv_min : ℚ
  vol_min : ℚ
  breakout_days : Nat
  dte_days : Int
  min_premium_pct : ℚ
deriving DecidableEq

/-- The collections built by the module-level scan loop (lines 146–162),
plus the warnings emitted along the way. -/
structure ScanOutput where
  results : List TickerResult
  breakouts : List TickerResult
  calls : List CoveredCall
  spreads : List PutSpread
  warnings : List String
deriving DecidableEq

/-- Python `round(x, 2)`, modelled as round-to-nearest on rationals. -/
def roundQ2 (q : ℚ) : ℚ := ((round (q * 100) : ℤ) : ℚ) / 100

/-- The last `k` elements of a list (pandas `Series.tail(k)`). -/
def lastN (k : Nat) (l : List ℚ) : List ℚ := l.drop (l.length - k)

/-- Python `max` over a series; the source only applies it to nonempty data. -/
def maxD : List ℚ → ℚ
  | [] => 0
  | a :: r => r.foldl max a

/-- Pandas `Series.diff()` without its leading `NaN` entry (line 30). -/
def diffs : List ℚ → List ℚ
  | [] => []
  | [_] => []
  | a :: b :: r => (b - a) :: diffs (b :: r)

/-- The gain series of line 31: the leading `NaN` of `diff()` fails the
`change > 0` mask and is replaced by `0`, hence the leading `0 ::`. -/
def gainsOf (closes : List ℚ) : List ℚ :=
  0 :: (diffs closes).map (fun c => if c > 0 then c else 0)

/-- The loss series of line 32; as with `gainsOf`, the leading `NaN`
fails the `change < 0` mask and becomes `0`. -/
def lossesOf (closes : List ℚ) : List ℚ :=
  0 :: (diffs closes).map (fun c => if c < 0 then -c else 0)

/-- Last value of `gain.rolling(14).mean()` (line 33), when defined. -/
def avgGainOf (closes : List ℚ) : ℚ := (lastN 14 (gainsOf closes)).sum / 14

/-- Last value of `loss.rolling(14).mean()` (line 34), when defined. -/
def avgLossOf (closes : List ℚ) : ℚ := (lastN 14 (lossesOf closes)).sum / 14

/-- Lines 29–36: the RSI value the source computes, under IEEE semantics.
With fewer than 14 observations the rolling means are `NaN` (`none`).
With `avg_loss = 0` and `avg_gain > 0` the quotient is `+inf` and
`100 - 100/(1 + inf)` evaluates to `100`; with both averages `0` the
quotient is `NaN` and so is the RSI (`none`).  The source performs the
division unconditionally — the case split below mirrors the float
arithmetic, it does not correspond to a branch in the source. -/
def rsiOfCloses (closes : List ℚ) : Option ℚ :=
  if (gainsOf closes).length < 14 then none
  else if avgLossOf closes = 0 then
    if 0 < avgGainOf closes then some 100 else none
  else some (100 - 100 / (1 + avgGainOf closes / avgLossOf closes))

/-- Line 93: `iv = round(info.get("impliedVolatility", 0) * 100, 2)`. -/
def computeIV (i : Info) : ℚ := roundQ2 ((i.impliedVolatility.getD 0) * 100)

/-- Line 106: `round(info.get("dividendYield", 0) * 100, 2)`. -/
def computeDY (i : Info) : ℚ := roundQ2 ((i.dividendYield.getD 0) * 100)

/-- Lines 56–66: one covered-call record for every call of the expiration
with `strike > price` and `bid >= price * (min_premium_pct / 100)`. -/
def coveredCallsForExp (ticker : String) (price min_premium_pct : ℚ)
    (exp dte today : Int) (calls : List OptionRow) : List CoveredCall :=
  calls.filterMap fun c =>
    if c.strike > price ∧ c.bid ≥ price * (min_premium_pct / 100) then
      some { ticker := ticker, expiration := exp, strike := c.strike,
             premium := c.bid, dte := dte, entryDate := today,
             exitDate := today + dte }
    else none

/-- Insertion step of the ascending-by-strike sort. -/
def insertSorted (r : OptionRow) : List OptionRow → List OptionRow
  | [] => [r]
  | x :: xs => if r.strike < x.strike then r :: x :: xs else x :: insertSorted r xs

/-- Line 68: `puts.sort_values("strike")`, modelled as a stable ascending
insertion sort on the strike column. -/
def sortByStrike (l : List OptionRow) : List OptionRow :=
  match l with
  | [] => []
  | x :: xs => insertSorted x (sortByStrike xs)

/-- Lines 69–89: walk adjacent pairs of the strike-sorted puts; on the first
pair with `width > 0`, `credit > 0`, `credit/width >= 0.33` and
`pop >= 0.65` (`pop = 0.70` when the short strike is below the price, else
`0.50`), append one record and `break`.  The `Option` return value is that
per-expiration at-most-one record. -/
def findSpread (ticker : String) (price : ℚ) (exp dte today : Int) :
    List OptionRow → Option PutSpread
  | sh :: lo :: rest =>
    let width := lo.strike - sh.strike
    let credit := sh.bid - lo.ask
    if width > 0 ∧ credit > 0 ∧ credit / width ≥ 33 / 100 then
      let pop : ℚ := if sh.strike < price then 70 / 100 else 50 / 100
      if pop ≥ 65 / 100 then
        some { ticker := ticker, shortStrike := sh.strike, longStrike := lo.strike,
               credit := roundQ2 credit, width := width, dte := dte, pop := pop,
               expiration := exp, entryDate := today, exitDate := today + dte }
      else findSpread ticker price exp dte today (lo :: rest)
    else findSpread ticker price exp dte today (lo :: rest)
  | _ => none

/-- Lines 46–54 applied to one expiration: skip it when `dte > dte_days` or
when either side of the chain is empty, otherwise collect its covered calls
and its (at most one) put spread. -/
def processExp (ticker : String) (price min_premium_pct : ℚ) (dte_days : Int)
    (today : Int) (e : Expiration) : List CoveredCall × Option PutSpread :=
  let dte := e.exp - today
  if dte > dte_days then ([], none)
  else if e.calls.isEmpty || e.puts.isEmpty then ([], none)
  else (coveredCallsForExp ticker price min_premium_pct e.exp dte today e.calls,
        findSpread ticker price e.exp dte today (sortByStrike e.puts))

/-- The `for exp in stock.options` loop (lines 45–91): concatenate each
expiration's covered calls and put spreads in iteration order. -/
def chainScan (ticker : String) (price min_premium_pct : ℚ) (dte_days : Int)
    (today : Int) : List Expiration → List CoveredCall × List PutSpread
  | [] => ([], [])
  | e :: rest =>
    let here := processExp ticker price min_premium_pct dte_days today e
    let further := chainScan ticker price min_premium_pct dte_days today rest
    (here.1 ++ further.1, here.2.toList ++ further.2)

/-- Lines 19–111: `fetch_yfinance_data`.  `data = none` models the provider
raising (outer `except: return None`); an empty history warns and returns
`None` (lines 25–27); otherwise the result dictionary of lines 95–109 is
built.  The first component is the list of `st.warning` messages emitted. -/
def fetch_yfinance_data (ticker : String) (today : Int) (breakout_days : Nat)
    (dte_days : Int) (min_premium_pct : ℚ) (data : Option TickerData) :
    List String × Option TickerResult :=
  match data with
  | none => ([], none)
  | some d =>
    match d.hist with
    | [] => (["No historical data for " ++ ticker], none)
    | c :: cs =>
      let closes := c :: cs
      let price := closes.getLast (List.cons_ne_nil c cs)
      let breakoutHigh := maxD (lastN breakout_days closes)
      let chains := chainScan ticker price min_premium_pct dte_days today d.options
      ([], some
        { ticker := ticker
          price := price
          breakoutHigh := breakoutHigh
          breakout := decide (price ≥ breakoutHigh * (98 / 100))
          rsi := (rsiOfCloses closes).map roundQ2
          iv := computeIV d.info
          coveredCalls := chains.1
          putSpreads := chains.2
          sector := d.info.sector.getD "N/A"
          marketCap := d.info.marketCap.getD 0
          dividendYield := computeDY d.info
          avgVolume := d.info.averageVolume.getD 0
          earningsDate := d.info.earningsDate.getD "N/A" })

/-- Line 151's RSI band check, `result["RSI"] >= rsi_min and result["RSI"]
<= rsi_max`.  A `NaN` RSI (`none`) compares `False` on both sides. -/
def rsiPass (rmin rmax : ℚ) : Option ℚ → Bool
  | none => false
  | some v => decide (v ≥ rmin) && decide (v ≤ rmax)

/-- The rest of line 151: IV and average-volume thresholds together with the
RSI band. -/
def passesFilters (cfg : Config) (r : TickerResult) : Bool :=
  rsiPass cfg.rsi_min cfg.rsi_max r.rsi
    && decide (r.iv ≥ cfg.iv_min)
    && decide (r.avgVolume ≥ cfg.vol_min)

/-- Lines 153–156: the `continue` conditions of the price-bucket filter. -/
def priceExcluded : PriceRange → ℚ → Bool
  | .all, _ => false
  | .lt10, p => decide (p ≥ 10)
  | .r10to50, p => decide (p < 10 ∨ p > 50)
  | .r50to150, p => decide (p < 50 ∨ p > 150)
  | .gt150, p => decide (p ≤ 150)

/-- The module-level scan loop (lines 144–162): fetch each ticker in
watchlist order, keep a result only when it passes the threshold filters and
the price bucket, and extend the breakout/covered-call/put-spread
collections from the kept results.  `env` models the yfinance responses,
`today` the wall clock the source reads via `datetime.today()`. -/
def runScan (cfg : Config) (today : Int) (env : String → Option TickerData) :
    List String → ScanOutput
  | [] => { results := [], breakouts := [], calls := [], spreads := [], warnings := [] }
  | t :: ts =>
    let fr := fetch_yfinance_data t today cfg.breakout_days cfg.dte_days
      cfg.min_premium_pct (env t)
    let rest := runScan cfg today env ts
    match fr.2 with
    | some r =>
      if passesFilters cfg r && !(priceExcluded cfg.price_range r.price) then
        { results := r :: rest.results
          breakouts := (if r.breakout then [r] else []) ++ rest.breakouts
          calls := r.coveredCalls ++ rest.calls
          spreads := r.putSpreads ++ rest.spreads
          warnings := fr.1 ++ rest.warnings }
      else { rest with warnings := fr.1 ++ rest.warnings }
    | none => { rest with warnings := fr.1 ++ rest.warnings }

/-- Projection: the covered calls of an optional fetch result. -/
def coveredCallsOf : Option TickerResult → List CoveredCall
  | none => []
  | some r => r.coveredCalls

/-! ### Helper lemmas about the candidate search -/

/-- Every record emitted by `coveredCallsForExp` comes from a call row that
passed the line-57 guard. -/
theorem mem_coveredCallsForExp {t : String} {price mp : ℚ} {exp dte today : Int}
    {rows : List OptionRow} {c : CoveredCall}
    (h : c ∈ coveredCallsForExp t price mp exp dte today rows) :
    price < c.strike ∧ price * (mp / 100) ≤ c.premium := by
  unfold coveredCallsForExp at h
  rw [List.mem_filterMap] at h
  obtain ⟨a, -, ha⟩ := h
  by_cases hc : a.strike > price ∧ a.bid ≥ price * (mp / 100)
  · rw [if_pos hc] at ha
    obtain rfl := Option.some.inj ha
    exact ⟨hc.1, hc.2⟩
  · rw [if_neg hc] at ha
    exact absurd ha (by simp)

/-- Soundness of the line 69–89 loop: a returned spread satisfies every
guard of lines 74–76, its width is the strike difference of the accepted
adjacent pair, its POP is the out-of-the-money value `0.70`, its short
strike is below the price, and its stored credit is the rounded value of a
positive raw credit whose ratio to the width is at least `0.33`. -/
theorem findSpread_spec {t : String} {price : ℚ} {exp dte today : Int} :
    ∀ (l : List OptionRow) {s : PutSpread},
      findSpread t price exp dte today l = some s →
      0 < s.width ∧ s.width = s.longStrike - s.shortStrike ∧ s.pop = 70 / 100 ∧
        s.shortStrike < price ∧
        ∃ c : ℚ, 0 < c ∧ 33 / 100 ≤ c / s.width ∧ s.credit = roundQ2 c := by
  intro l
  induction l with
  | nil => intro s h; simp [findSpread] at h
  | cons a tail ih =>
    intro s h
    cases tail with
    | nil => simp [findSpread] at h
    | cons b rest =>
      simp only [findSpread] at h
      split_ifs at h with hg hp hq hq'
      · obtain rfl := Option.some.inj h
        exact ⟨hg.1, rfl, rfl, hp, a.bid - b.ask, hg.2.1, hg.2.2, rfl⟩
      · exact ih h
      · exact absurd hq' (by norm_num)
      · exact ih h
      · exact ih h

/-- The first component of `processExp` is either nothing (a skipped
expiration) or the covered calls of that expiration. -/
theorem processExp_fst (t : String) (price mp : ℚ) (dd today : Int) (e : Expiration) :
    (processExp t price mp dd today e).1 = [] ∨
      (processExp t price mp dd today e).1
        = coveredCallsForExp t price mp e.exp (e.exp - today) today e.calls := by
  simp only [processExp]
  split_ifs <;> simp

/-- The second component of `processExp` is either nothing or the result of
the put-spread search on the strike-sorted puts. -/
theorem processExp_snd (t : String) (price mp : ℚ) (dd today : Int) (e : Expiration) :
    (processExp t price mp dd today e).2 = none ∨
      (processExp t price mp dd today e).2
        = findSpread t price e.exp (e.exp - today) today (sortByStrike e.puts) := by
  simp only [processExp]
  split_ifs <;> simp

/-- Covered calls collected over the whole chain satisfy the line-57 guard
with respect to the price the scan used. -/
theorem chainScan_calls_spec {t : String} {price mp : ℚ} {dd today : Int} :
    ∀ (exps : List Expiration) {c : CoveredCall},
      c ∈ (chainScan t price mp dd today exps).1 →
      price < c.strike ∧ price * (mp / 100) ≤ c.premium := by
  intro exps
  induction exps with
  | nil => intro c h; simp [chainScan] at h
  | cons e rest ih =>
    intro c h
    rw [chainScan] at h
    rcases List.mem_append.mp h with h1 | h2
    · rcases processExp_fst t price mp dd today e with he | he
      · rw [he] at h1; exact absurd h1 (by simp)
      · rw [he] at h1; exact mem_coveredCallsForExp h1
    · exact ih h2

/-- Put spreads collected over the whole chain satisfy the guards of
lines 74–76 with respect to the price the scan used. -/
theorem chainScan_spreads_spec {t : String} {price mp : ℚ} {dd today : Int} :
    ∀ (exps : List Expiration) {s : PutSpread},
      s ∈ (chainScan t price mp dd today exps).2 →
      0 < s.width ∧ s.pop = 70 / 100 ∧ s.shortStrike < price := by
  intro exps
  induction exps with
  | nil => intro s h; simp [chainScan] at h
  | cons e rest ih =>
    intro s h
    rw [chainScan] at h
    rcases List.mem_append.mp h with h1 | h2
    · rcases processExp_snd t price mp dd today e with he | he
      · rw [he] at h1; exact absurd h1 (by simp)
      · rw [he] at h1
        rw [Option.mem_toList, Option.mem_def] at h1
        obtain ⟨hw, -, hp, hs, -⟩ := findSpread_spec _ h1
        exact ⟨hw, hp, hs⟩
    · exact ih h2

/-! ### Concrete fixtures used by counterexamples and witnesses -/

/-- An info dict with IV 0.45 and dividend yield 0.02. -/
def infoIVDiv : Info :=
  ⟨some (45 / 100), some (2 / 100), some "Tech", some 1000, some 1000000, none⟩

/-- Chain data whose single expiration has two calls passing the line-57
guard at price 100 (strikes 105 and 110, bids 2 and 5). -/
def dataTwoCalls : TickerData :=
  ⟨[100], infoIVDiv, [⟨10, [⟨105, 2, 3⟩, ⟨110, 5, 6⟩], [⟨90, 1, 2⟩]⟩]⟩

/-- The first covered-call record the scan of `dataTwoCalls` produces. -/
def callRec105 : CoveredCall := ⟨"X", 10, 105, 2, 10, 0, 10⟩

/-- The full fetch result for `dataTwoCalls` at evaluation date 0. -/
def resultTwoCalls : TickerResult :=
  ⟨"X", 100, 100, true, none, 45, [callRec105, ⟨"X", 10, 110, 5, 10, 0, 10⟩], [],
   "Tech", 1000, 2, 1000000, "N/A"⟩

/-- An expiration whose sorted puts admit a qualifying adjacent pair:
width 5, raw credit 1.9, ratio 0.38, short strike 90 below price 100. -/
def expPuts : Expiration := ⟨10, [⟨110, 5, 6⟩], [⟨90, 2, 3⟩, ⟨95, 3, 1 / 10⟩]⟩

/-- The put-spread record accepted out of `expPuts` at price 100. -/
def spreadRec : PutSpread := ⟨"X", 90, 95, 19 / 10, 5, 10, 7 / 10, 10, 0, 10⟩

/-- Chain data producing one covered call and one put spread. -/
def dataSpread : TickerData := ⟨[100], infoIVDiv, [expPuts]⟩

/-- The full fetch result for `dataSpread` at evaluation date 0. -/
def resultSpread : TickerResult :=
  ⟨"X", 100, 100, true, none, 45, [⟨"X", 10, 110, 5, 10, 0, 10⟩], [spreadRec],
   "Tech", 1000, 2, 1000000, "N/A"⟩

/-! ### Claim theorems -/

/-- Claim C5 (confirmed): every put-credit-spread candidate an expiration
produces has positive width equal to long strike minus short strike, POP at
least the acceptance minimum 0.65, and a stored credit that is the rounding
of a positive raw credit (short bid minus long ask of the accepted adjacent
pair) whose ratio to the width is at least 0.33; and each expiration
contributes at most one spread (the search stops at the first accepted
adjacent pair). -/
theorem C5_put_spread_invariants (t : String) (price mp : ℚ) (dd today : Int)
    (e : Expiration) :
    (processExp t price mp dd today e).2.toList.length ≤ 1 ∧
    ∀ s ∈ (processExp t price mp dd today e).2.toList,
      0 < s.width ∧ s.width = s.longStrike - s.shortStrike ∧ (65 / 100 : ℚ) ≤ s.pop ∧
      ∃ c : ℚ, 0 < c ∧ 33 / 100 ≤ c / s.width ∧ s.credit = roundQ2 c := by
  constructor
  · rcases processExp_snd t price mp dd today e with he | he <;> rw [he]
    · simp
    · cases hfs : findSpread t price e.exp (e.exp - today) today (sortByStrike e.puts) <;>
        simp [hfs]
  · intro s hs
    rcases processExp_snd t price mp dd today e with he | he <;> rw [he] at hs
    · simp at hs
    · rw [Option.mem_toList, Option.mem_def] at hs
      obtain ⟨hw, hrel, hpop, -, c, hc⟩ := findSpread_spec _ hs
      exact ⟨hw, hrel, by rw [hpop]; norm_num, c, hc⟩

/-- Witness for C5 at a concrete qualifying expiration. -/
theorem C5_put_spread_invariants_witness :
    0 < spreadRec.width ∧ spreadRec.width = spreadRec.longStrike - spreadRec.shortStrike ∧
      (65 / 100 : ℚ) ≤ spreadRec.pop ∧
      ∃ c : ℚ, 0 < c ∧ 33 / 100 ≤ c / spreadRec.width ∧ spreadRec.credit = roundQ2 c :=
  (C5_put_spread_invariants "X" 100 (1 / 2) 30 0 expPuts).2 spreadRec
    (by with_unfolding_all decide)

/-- Claim C9 (confirmed): every covered-call record a fetch produces has
strike strictly above the result's stock price and premium (bid) at least
`price * (min_premium_pct / 100)`. -/
theorem C9_covered_call_invariants (t : String) (today : Int) (bd : Nat) (dd : Int)
    (mp : ℚ) (data : Option TickerData) (r : TickerResult)
    (h : (fetch_yfinance_data t today bd dd mp data).2 = some r) :
    ∀ c ∈ r.coveredCalls, r.price < c.strike ∧ r.price * (mp / 100) ≤ c.premium := by
  cases data with
  | none => simp [fetch_yfinance_data] at h
  | some d =>
    cases hh : d.hist with
    | nil => simp [fetch_yfinance_data, hh] at h
    | cons c0 cs =>
      simp only [fetch_yfinance_data, hh, Option.some.injEq] at h
      subst h
      intro c hc
      exact chainScan_calls_spec _ hc

/-- Witness for C9 at a concrete chain with two produced records. -/
theorem C9_covered_call_invariants_witness :
    resultTwoCalls.price < callRec105.strike ∧
      resultTwoCalls.price * ((1 / 2) / 100) ≤ callRec105.premium :=
  C9_covered_call_invariants "X" 0 30 30 (1 / 2) (some dataTwoCalls) resultTwoCalls
    (by with_unfolding_all rfl) callRec105 (by with_unfolding_all decide)

/-- Claim C10 (confirmed): every put-spread record a fetch produces has its
short strike strictly below the result's stock price, because only the
out-of-the-money POP value 0.70 reaches the hard-coded 0.65 threshold. -/
theorem C10_short_strike_below_price (t : String) (today : Int) (bd : Nat) (dd : Int)
    (mp : ℚ) (data : Option TickerData) (r : TickerResult)
    (h : (fetch_yfinance_data t today bd dd mp data).2 = some r) :
    ∀ s ∈ r.putSpreads, s.shortStrike < r.price ∧ s.pop = 70 / 100 := by
  cases data with
  | none => simp [fetch_yfinance_data] at h
  | some d =>
    cases hh : d.hist with
    | nil => simp [fetch_yfinance_data, hh] at h
    | cons c0 cs =>
      simp only [fetch_yfinance_data, hh, Option.some.injEq] at h
      subst h
      intro s hs
      obtain ⟨-, hp, hlt⟩ := chainScan_spreads_spec _ hs
      exact ⟨hlt, hp⟩

/-- Witness for C10 at a concrete chain with one produced spread. -/
theorem C10_short_strike_below_price_witness :
    spreadRec.shortStrike < resultSpread.price ∧ spreadRec.pop = 70 / 100 :=
  C10_short_strike_below_price "X" 0 30 30 (1 / 2) (some dataSpread) resultSpread
    (by with_unfolding_all rfl) spreadRec (by with_unfolding_all decide)

/-- An alternating 15-close history: RSI is defined (average gain and loss
are both 1/2, so RSI = 50) and the last price is 100. -/
def histAlt : List ℚ :=
  [100, 101, 100, 101, 100, 101, 100, 101, 100, 101, 100, 101, 100, 101, 100]

/-- Ticker data with IV 0.45, dividend yield 0.02, a defined RSI, and one
chain expiration with a qualifying covered call. -/
def dataAlt : TickerData := ⟨histAlt, infoIVDiv, [⟨10, [⟨110, 5, 6⟩], [⟨90, 1, 2⟩]⟩]⟩

/-- A fully permissive sidebar configuration (the widget defaults). -/
def cfgOpen : Config := ⟨.all, 0, 100, 0, 0, 30, 30, 1 / 2⟩

/-- An info dict whose `impliedVolatility` key is absent. -/
def infoNoIV : Info := ⟨none, none, none, none, some 1000000, none⟩

/-- Ticker data with a defined RSI but no implied volatility reported. -/
def dataNoIV : TickerData := ⟨histAlt, infoNoIV, []⟩

/-- A configuration with `rsi_min = 60 > 40 = rsi_max`. -/
def cfgBadBand : Config := ⟨.all, 60, 40, 0, 0, 30, 30, 1 / 2⟩

/-- Ticker data with an empty price history. -/
def dataNoHist : TickerData := ⟨[], infoNoIV, []⟩

/-- An environment where ticker B's provider call fails and every other
ticker returns `dataAlt`. -/
def envOneFails : String → Option TickerData :=
  fun t => if t = "B" then none else some dataAlt

/-- Replace the `dividendYield` entry of a ticker's info dict. -/
def setDY (v : Option ℚ) (d : TickerData) : TickerData :=
  { d with info := { d.info with dividendYield := v } }

/-- Changing the dividend yield of the provider data only changes the
`dividendYield` field of the fetch result: warnings, option-chain scan,
RSI, IV and all filter-relevant fields are untouched. -/
theorem fetch_setDY (t : String) (today : Int) (bd : Nat) (dd : Int) (mp : ℚ)
    (od : Option TickerData) (v : Option ℚ) :
    fetch_yfinance_data t today bd dd mp (od.map (setDY v))
      = ((fetch_yfinance_data t today bd dd mp od).1,
         (fetch_yfinance_data t today bd dd mp od).2.map
           (fun r => { r with dividendYield := roundQ2 ((v.getD 0) * 100) })) := by
  cases od with
  | none => rfl
  | some d =>
    cases d with
    | mk hist info options =>
      cases hist with
      | nil => rfl
      | cons c0 cs => rfl

/-- Claim C1 (counterexample): a ticker whose implied volatility is 0.45 and
whose dividend yield is 0.02 still produces a covered-call record — the scan
has no `IV > 0.40 and dividend yield == 0` gate. -/
theorem C1_call_despite_dividend :
    dataAlt.info.impliedVolatility = some (45 / 100) ∧
    dataAlt.info.dividendYield = some (2 / 100) ∧
    (runScan cfgOpen 0 (fun _ => some dataAlt) ["X"]).calls
      = [⟨"X", 10, 110, 5, 10, 0, 10⟩] :=
  ⟨rfl, rfl, by with_unfolding_all rfl⟩

/-- Claim C1 (amended): the covered-call output collection is independent of
the tickers' dividend yields — records are produced for every out-of-the-money
call meeting the premium threshold on a ticker that passes the RSI band,
`IV >= iv_min`, volume and price-bucket filters, with no dividend-yield or
`IV > 0.40` condition. -/
theorem C1_calls_ignore_dividendYield (cfg : Config) (today : Int)
    (env : String → Option TickerData) (v : Option ℚ) :
    ∀ ts : List String,
      (runScan cfg today (fun x => (env x).map (setDY v)) ts).calls
        = (runScan cfg today env ts).calls := by
  intro ts
  induction ts with
  | nil => rfl
  | cons t ts ih =>
    simp only [runScan, fetch_setDY]
    cases hr : (fetch_yfinance_data t today cfg.breakout_days cfg.dte_days
        cfg.min_premium_pct (env t)).2 with
    | none => simpa using ih
    | some r =>
      have hp : passesFilters cfg { r with dividendYield := roundQ2 ((v.getD 0) * 100) }
          = passesFilters cfg r := rfl
      have hx : priceExcluded cfg.price_range
            ({ r with dividendYield := roundQ2 ((v.getD 0) * 100) } : TickerResult).price
          = priceExcluded cfg.price_range r.price := rfl
      by_cases hc : passesFilters cfg r && !(priceExcluded cfg.price_range r.price)
      · simp [hp, hx, hc, ih]
      · simp [hp, hx, hc, ih]

/-- Claim C2 (counterexample): one fetch result carrying two covered-call
candidates — the search appends every qualifying call and does not stop at
the first qualifying expiration or call. -/
theorem C2_two_covered_calls :
    (coveredCallsOf (fetch_yfinance_data "X" 0 30 30 (1 / 2) (some dataTwoCalls)).2).length
      = 2 := by
  with_unfolding_all rfl

/-- Claim C2 (amended): per expiration the search emits exactly one record
for every call passing the line-57 guard — not at most one overall. -/
theorem C2_record_per_qualifying_call (t : String) (price mp : ℚ)
    (exp dte today : Int) (rows : List OptionRow) :
    (coveredCallsForExp t price mp exp dte today rows).length
      = (rows.filter fun c =>
          decide (c.strike > price ∧ c.bid ≥ price * (mp / 100))).length := by
  induction rows with
  | nil => rfl
  | cons a l ih =>
    by_cases hc : a.strike > price ∧ a.bid ≥ price * (mp / 100)
    · simp only [coveredCallsForExp, List.filterMap_cons, List.filter_cons] at ih ⊢
      rw [if_pos hc]
      simp [hc, ih]
    · simp only [coveredCallsForExp, List.filterMap_cons, List.filter_cons] at ih ⊢
      rw [if_neg hc]
      simp [hc, ih]

/-- Claim C3 (counterexample): a ticker whose provider reports no implied
volatility is given `IV = 0` and sails through the `IV >= iv_min` threshold
check into the result set — missing IV is not an explicit unavailable state
and does not automatically fail the check. -/
theorem C3_missing_iv_passes_filter :
    dataNoIV.info.impliedVolatility = none ∧
    (runScan cfgOpen 0 (fun _ => some dataNoIV) ["M"]).results.map (fun r => r.iv)
      = [0] :=
  ⟨rfl, by with_unfolding_all rfl⟩

/-- Claim C3 (amended): a missing implied volatility is silently defaulted
to 0 by line 93 (so the `IV >= iv_min` check compares 0, passing whenever
`iv_min <= 0`), while an undefined (NaN) RSI does fail the RSI band check. -/
theorem C3_missing_iv_defaults_zero (i : Info) (rmin rmax : ℚ) :
    computeIV { i with impliedVolatility := none } = 0 ∧
      rsiPass rmin rmax none = false := by
  constructor
  · simp [computeIV, roundQ2]
  · rfl

/-- Claim C4 (counterexample): for a constant price series (average loss
zero and average gain zero) the RSI is the undefined value `NaN`
(`0/0` propagates), not 100. -/
theorem C4_constant_prices_rsi_nan :
    rsiOfCloses (List.replicate 15 (100 : ℚ)) = none := by
  with_unfolding_all rfl

/-- Claim C4 (amended): when the 14-observation average loss is zero the
source still performs the division; under IEEE semantics the RSI comes out
as 100 exactly when the average gain is positive (monotonically rising
prices), and as NaN (undefined) when the average gain is zero as well
(constant prices) — there is no explicit special-case branch. -/
theorem C4_zero_avg_loss_rsi (closes : List ℚ)
    (h14 : 14 ≤ (gainsOf closes).length) (h0 : avgLossOf closes = 0) :
    rsiOfCloses closes = if 0 < avgGainOf closes then some 100 else none := by
  rw [rsiOfCloses, if_neg (by omega), if_pos h0]

/-- Witness for C4 at a strictly rising 15-close series. -/
theorem C4_zero_avg_loss_rsi_witness :
    rsiOfCloses [1, 2, 3, 4, 5, 6, 7, 8, 9, 10, 11, 12, 13, 14, 15] = some 100 := by
  rw [C4_zero_avg_loss_rsi _ (by with_unfolding_all decide) (by with_unfolding_all decide)]
  with_unfolding_all rfl

/-- Claim C6 (counterexample): identical market data fetched at two
different wall-clock dates (day 0 vs day 5) yields different results — DTE,
entry date and exit date all come from `datetime.today()`, which the source
reads inside the fetch instead of taking as an input. -/
theorem C6_output_depends_on_clock :
    (fetch_yfinance_data "X" 0 30 30 (1 / 2) (some dataTwoCalls)).2
      ≠ (fetch_yfinance_data "X" 5 30 30 (1 / 2) (some dataTwoCalls)).2 := by
  with_unfolding_all decide

/-- Claim C6 (amended): with the evaluation date held fixed, the scan is a
pure function of its inputs — pointwise-equal provider environments give
identical output collections; but the evaluation date itself is read from
the wall clock inside the fetch, and DTE, entry date, exit date and
expiration qualification all vary with it. -/
theorem C6_same_inputs_same_output (cfg : Config) (today : Int)
    (env1 env2 : String → Option TickerData) (ts : List String)
    (h : ∀ t, env1 t = env2 t) :
    runScan cfg today env1 ts = runScan cfg today env2 ts := by
  have he : env1 = env2 := funext h
  rw [he]

/-- Witness for C6 with two syntactically different but pointwise-equal
environments. -/
theorem C6_same_inputs_same_output_witness :
    runScan cfgOpen 0 (fun _ => some dataTwoCalls) ["X"]
      = runScan cfgOpen 0 (fun x => if x = x then some dataTwoCalls else none) ["X"] :=
  C6_same_inputs_same_output cfgOpen 0 _ _ ["X"] (fun t => by simp)

/-- With an unsatisfiable RSI band the line-151 filter rejects every
result, whatever its RSI value (defined or `NaN`). -/
theorem rsiPass_false_of_bad_band {rmin rmax : ℚ} (h : rmax < rmin)
    (o : Option ℚ) : rsiPass rmin rmax o = false := by
  cases o with
  | none => rfl
  | some v =>
    rcases le_or_lt rmin v with h1 | h1
    · have h2 : ¬ v ≤ rmax := by linarith
      simp [rsiPass, h2]
    · have h2 : ¬ rmin ≤ v := not_le.mpr h1
      simp [rsiPass, h2]

/-- Claim C7 (counterexample): with `rsi_min = 60 > 40 = rsi_max` the scan
is not rejected — it still evaluates the ticker (the fetch runs and emits
its per-ticker warning) and completes with the ordinary empty collections;
no configuration error exists anywhere in the output. -/
theorem C7_scan_runs_despite_bad_band :
    cfgBadBand.rsi_max < cfgBadBand.rsi_min ∧
    runScan cfgBadBand 0 (fun _ => some dataNoHist) ["X"]
      = ⟨[], [], [], [], ["No historical data for X"]⟩ :=
  ⟨by norm_num [cfgBadBand], by with_unfolding_all rfl⟩

/-- Claim C7 (amended): the source validates nothing — when
`rsi_min > rsi_max` the scan still runs over every ticker, the unsatisfiable
RSI band filters every result out, and the scan ends normally with all four
collections empty and no error surfaced. -/
theorem C7_invalid_band_runs_empty (cfg : Config) (today : Int)
    (env : String → Option TickerData) (h : cfg.rsi_max < cfg.rsi_min) :
    ∀ ts : List String,
      (runScan cfg today env ts).results = [] ∧
      (runScan cfg today env ts).breakouts = [] ∧
      (runScan cfg today env ts).calls = [] ∧
      (runScan cfg today env ts).spreads = [] := by
  intro ts
  induction ts with
  | nil => exact ⟨rfl, rfl, rfl, rfl⟩
  | cons t ts ih =>
    simp only [runScan]
    cases hr : (fetch_yfinance_data t today cfg.breakout_days cfg.dte_days
        cfg.min_premium_pct (env t)).2 with
    | none => simpa using ih
    | some r =>
      have hp : passesFilters cfg r = false := by
        simp [passesFilters, rsiPass_false_of_bad_band h]
      simp only [hp, Bool.false_and]
      simpa using ih

/-- Witness for C7 at a concrete invalid band over data that would
otherwise produce records. -/
theorem C7_invalid_band_runs_empty_witness :
    (runScan cfgBadBand 0 (fun _ => some dataAlt) ["X"]).results = [] ∧
      (runScan cfgBadBand 0 (fun _ => some dataAlt) ["X"]).breakouts = [] ∧
      (runScan cfgBadBand 0 (fun _ => some dataAlt) ["X"]).calls = [] ∧
      (runScan cfgBadBand 0 (fun _ => some dataAlt) ["X"]).spreads = [] :=
  C7_invalid_band_runs_empty cfgBadBand 0 _ (by with_unfolding_all decide) ["X"]

/-- Claim C8 (counterexample): the scan over three tickers with B's provider
call failing still returns the two other tickers' results, but its output is
exactly the output of a scan that never contained B — the failure is
discarded silently, reported nowhere. -/
theorem C8_failure_leaves_no_trace :
    envOneFails "B" = none ∧
    runScan cfgOpen 0 envOneFails ["A", "B", "C"]
      = runScan cfgOpen 0 envOneFails ["A", "C"] ∧
    (runScan cfgOpen 0 envOneFails ["A", "B", "C"]).results.length = 2 :=
  ⟨by with_unfolding_all rfl, by with_unfolding_all rfl, by with_unfolding_all rfl⟩

/-- Claim C8 (amended): one ticker's fetch failure never aborts the scan —
the output over the remaining tickers is untouched — but the failed ticker
is skipped without leaving any record, warning or report in the output. -/
theorem C8_failed_fetch_skipped (cfg : Config) (today : Int)
    (env : String → Option TickerData) (t : String) (h : env t = none) :
    ∀ pre post : List String,
      runScan cfg today env (pre ++ t :: post) = runScan cfg today env (pre ++ post) := by
  intro pre
  induction pre with
  | nil =>
    intro post
    simp only [List.nil_append, runScan, h, fetch_yfinance_data, List.nil_append]
  | cons a pre ih =>
    intro post
    simp only [List.cons_append, runScan, List.append_eq, ih]

/-- Witness for C8 dropping the failing middle ticker of a three-ticker
watchlist. -/
theorem C8_failed_fetch_skipped_witness :
    runScan cfgOpen 0 envOneFails (["A"] ++ "B" :: ["C"])
      = runScan cfgOpen 0 envOneFails (["A"] ++ ["C"]) :=
  C8_failed_fetch_skipped cfgOpen 0 envOneFails "B" (by with_unfolding_all rfl) ["A"] ["C"]
